import Mathlib

/-!
Verification of the open-next-router gateway against its specification.

This file shallowly embeds the Go code of the repository: pure functions
become Lean functions, Go strings become Lean strings manipulated through
executable character-list helpers (`goTrim` models `strings.TrimSpace`,
`goStartsWith` models `strings.HasPrefix`, and so on), fallible code
returns `Option` or `Except`, and the stateful access-log writer becomes
explicit state passing.  Each definition names the Go symbol it embeds.
Definitions are written from the source files; the places where the
deciding code is absent from the provided tree are marked
`Modelled from the spec:` in their doc comment.
-/

namespace ONR

/-! ## Go string helpers

Executable models of the `strings` package functions used by the embedded
code.  They operate on the character list of the string so that concrete
instances reduce inside the kernel. -/

/-- Drop leading whitespace characters from a character list. -/
def dropLeadingWS : List Char → List Char
  | [] => []
  | c :: cs => if c.isWhitespace then dropLeadingWS cs else c :: cs

/-- Model of `strings.TrimSpace`: drop leading and trailing whitespace. -/
def goTrim (s : String) : String :=
  ⟨(dropLeadingWS (dropLeadingWS s.data.reverse).reverse)⟩

/-- Whether one character list starts with another. -/
def listStartsWith : List Char → List Char → Bool
  | _, [] => true
  | [], _ :: _ => false
  | c :: cs, p :: ps => c == p && listStartsWith cs ps

/-- Model of `strings.HasPrefix`. -/
def goStartsWith (s pre : String) : Bool :=
  listStartsWith s.data pre.data

/-- Model of `strings.TrimPrefix`: drop the leading occurrence of `pre` if present. -/
def goStripLeading (s pre : String) : String :=
  if goStartsWith s pre then ⟨s.data.drop pre.data.length⟩ else s

/-- Model of `strings.HasSuffix`. -/
def goEndsWith (s suf : String) : Bool :=
  listStartsWith s.data.reverse suf.data.reverse

/-- Model of `strings.ToLower` (ASCII range, as used by the embedded code). -/
def goToLower (s : String) : String :=
  ⟨s.data.map Char.toLower⟩

/-! ## Auth middleware (onr/internal/auth/middleware.go)

The gin context is modelled by the request headers the middleware reads.
An absent header is the empty string, exactly as Go `GetHeader` returns.
The `queryKey` field records the credential query parameter mentioned by
the specification; the source middleware never reads it, which is the
point of claim C1. -/

structure RequestCtx where
  authorization : String
  xApiKey : String
  xGoogApiKey : String
  queryKey : String
  deriving Repr, DecidableEq

/-- Credential extraction of `auth.Middleware` (middleware.go lines 24-33):
`Authorization: Bearer` first, then `x-api-key`, then `x-goog-api-key`.
No further fallback exists in the source. -/
def extractCredential (c : RequestCtx) : String :=
  let v := goTrim c.authorization
  let got := if goStartsWith v "Bearer " then goTrim (goStripLeading v "Bearer ") else ""
  let got := if got = "" then goTrim c.xApiKey else got
  if got = "" then goTrim c.xGoogApiKey else got

/-- The extraction as the specification words it (spec section 4.5): like
`extractCredential` but with a final fallback to the credential query
parameter.  Written from the spec sentence, for comparison with the code. -/
def extractCredentialClaim (c : RequestCtx) : String :=
  let v := goTrim c.authorization
  let got := if goStartsWith v "Bearer " then goTrim (goStripLeading v "Bearer ") else ""
  let got := if got = "" then goTrim c.xApiKey else got
  let got := if got = "" then goTrim c.xGoogApiKey else got
  if got = "" then c.queryKey else got

/-- Token mode of a parsed token key (`TokenModeONR` / `TokenModeBYOK`). -/
inductive TokenMode where
  | onr
  | byok
  deriving Repr, DecidableEq, BEq

/-- Claims carried by a parsed `onr:v1?` token key (fields read by the
middleware: provider, model override, upstream key, mode). -/
structure TokenClaims where
  provider : String
  modelOverride : String
  upstreamKey : String
  mode : TokenMode
  deriving Repr, DecidableEq

/-- The JSON error body written by `AbortWithStatusJSON`; `errorType`
renders to the JSON key `type`. -/
structure ErrorBody where
  message : String
  errorType : String
  code : String
  deriving Repr, DecidableEq

/-- The body of middleware.go lines 82-88. -/
def unauthorizedBody : ErrorBody :=
  { message := "unauthorized"
    errorType := "invalid_request_error"
    code := "invalid_api_key" }

/-- Outcome of the middleware: which branch called `c.Next()` (and with
which context fields), or `c.AbortWithStatusJSON` with status and body.
On `abort` no downstream handler runs. -/
inductive AuthOutcome where
  | nextMaster
  | nextAccessKey (name : String)
  | nextToken (claims : TokenClaims)
  | abort (status : Nat) (body : ErrorBody)
  deriving Repr, DecidableEq

/-- The nil-able Go callback `matchAccessKey`: `none` models a nil function
pointer, `some f` a matcher returning `(name, ok)` as `Option String`. -/
def accessMatch (m : Option (String → Option String)) (s : String) : Option String :=
  match m with
  | some f => f s
  | none => none

/-- The master-key branch (middleware.go line 36): non-empty trimmed master
key and constant-time equality of the credential with it.  Constant-time
byte comparison of equal-length reads is plain string equality. -/
def masterAccepts (masterKey got : String) : Bool :=
  goTrim masterKey != "" && got == goTrim masterKey

/-- The token-key branch (middleware.go lines 48-78).  `parse` stands for
`ParseTokenKeyV1WithOptions` (whose body is outside the provided tree); the
branch is faithful to the middleware for every parser.  Returns the claims
when the branch would call `c.Next()`, else `none`. -/
def tokenAccept (masterKey : String) (m : Option (String → Option String))
    (allowBYOKWithoutK : Bool) (isTokenKey : String → Bool)
    (parse : Bool → String → Option (TokenClaims × String))
    (got : String) : Option TokenClaims :=
  if isTokenKey got then
    match parse allowBYOKWithoutK got with
    | some (claims, accessKey) =>
      let ok :=
        if goTrim accessKey != "" then
          (goTrim masterKey != "" && accessKey == goTrim masterKey)
            || (accessMatch m accessKey).isSome
        else
          allowBYOKWithoutK && claims.mode == TokenMode.byok
            && goTrim claims.upstreamKey != ""
      if ok then some claims else none
    | none => none
  else none

/-- Model of `auth.Middleware` (middleware.go lines 23-91): extract the credential,
try the master key, the access-key pool, then the token key; otherwise
abort with 401 and the unauthorized body. -/
def middlewareAuth (masterKey : String) (m : Option (String → Option String))
    (allowBYOKWithoutK : Bool) (isTokenKey : String → Bool)
    (parse : Bool → String → Option (TokenClaims × String))
    (c : RequestCtx) : AuthOutcome :=
  let got := extractCredential c
  if masterAccepts masterKey got then AuthOutcome.nextMaster
  else
    match accessMatch m got with
    | some name => AuthOutcome.nextAccessKey name
    | none =>
      match tokenAccept masterKey m allowBYOKWithoutK isTokenKey parse got with
      | some claims => AuthOutcome.nextToken claims
      | none => AuthOutcome.abort 401 unauthorizedBody

/-! ## Request id (onr-core/pkg/requestid/requestid.go and onrserver router) -/

/-- One decimal digit character (the `digits` table of `randomDigits`). -/
def digitChar (n : Nat) : Char :=
  match n % 10 with
  | 0 => '0' | 1 => '1' | 2 => '2' | 3 => '3' | 4 => '4'
  | 5 => '5' | 6 => '6' | 7 => '7' | 8 => '8' | _ => '9'

/-- Zero-padded fixed-width decimal rendering, as `time.Format` renders
each calendar component (`2006`, `01`, ..., `.000000`) for values in the
component range. -/
def padDigits : Nat → Nat → List Char
  | 0, _ => []
  | w + 1, n => padDigits w (n / 10) ++ [digitChar n]

/-- The wall-clock components read by `time.Format` in `timeString`. -/
structure GoTime where
  year : Nat
  month : Nat
  day : Nat
  hour : Nat
  minute : Nat
  second : Nat
  micro : Nat
  deriving Repr, DecidableEq

/-- Model of `requestid.timeString`: `Format("20060102150405.000000")` with the dot
removed — the wall clock as `yyyymmddHHMMSS` plus six fractional digits. -/
def timeString (t : GoTime) : List Char :=
  padDigits 4 t.year ++ padDigits 2 t.month ++ padDigits 2 t.day
    ++ padDigits 2 t.hour ++ padDigits 2 t.minute ++ padDigits 2 t.second
    ++ padDigits 6 t.micro

/-- Model of `requestid.randomDigits`: `n` digits drawn from the digit table; the
crypto random source is a parameter returning a bounded index. -/
def randomDigits (rand : Nat → Fin 10) (n : Nat) : List Char :=
  (List.range n).map (fun i => digitChar (rand i))

/-- Model of `requestid.Gen`: timestamp digits followed by 8 random digits. -/
def Gen (t : GoTime) (rand : Nat → Fin 10) : List Char :=
  timeString t ++ randomDigits rand 8

/-- Model of `requestIDMiddleware` (onrserver router): trim the incoming
`X-Onr-Request-Id` header (absent modelled by `none`); if the result is
empty use a generated id; set the result on the response and the context. -/
def requestIDMiddleware (genID : String) (header : Option String) : String :=
  let id := goTrim (header.getD "")
  if id = "" then genID else id

/-! ## Streamed passthrough traffic dump (internal/proxy/stream_write.go) -/

/-- Modelled from the spec: `limitedBuffer` is not under the provided tree
(only its use in stream_write.go); per spec section 4.10 body sections are
captured by a size-capped buffer with a truncation marker.  A write appends
at most the remaining room and marks truncation when bytes are dropped. -/
structure LimitedBuffer where
  limit : Nat
  data : List Nat
  truncated : Bool
  deriving Repr, DecidableEq

/-- One write into the size-capped buffer. -/
def LimitedBuffer.write (b : LimitedBuffer) (p : List Nat) : LimitedBuffer :=
  let room := b.limit - b.data.length
  if p.length ≤ room then { b with data := b.data ++ p }
  else { b with data := b.data ++ p.take room, truncated := true }

/-- One recorded dump section (the payload of `SetUpstream` / `SetProxy`). -/
structure DumpSection where
  bytes : List Nat
  truncated : Bool
  deriving Repr, DecidableEq

/-- The per-request dump state filled by the stream writers
(`streamDumpState`). -/
structure StreamDumpState where
  upstream : Option DumpSection
  proxy : Option DumpSection
  deriving Repr, DecidableEq

/-- Model of `streamPassthrough` (stream_write.go lines 68-86) restricted to its
dump effect: when a recorder with positive `MaxBytes` is present, the
upstream body is teed through a single `limitedBuffer` and both
`SetUpstream` and `SetProxy` receive that same buffer and flag; otherwise
neither section is set. -/
def streamPassthrough (dumpEnabled : Bool) (maxBytes : Nat)
    (body : List (List Nat)) : StreamDumpState :=
  if dumpEnabled = true ∧ 0 < maxBytes then
    let buf := body.foldl LimitedBuffer.write ⟨maxBytes, [], false⟩
    { upstream := some ⟨buf.data, buf.truncated⟩
      proxy := some ⟨buf.data, buf.truncated⟩ }
  else { upstream := none, proxy := none }

/-! ## Access-log rotating writer (onr/internal/logx) -/

/-- State of `AccessRotateWriter`: archived files (oldest first), the bytes
of the active file, `currentSize`, the day key under which the active file
was opened, and `maxSizeBytes` (`MaxSizeMB * 1024 * 1024`).  Contents are
byte lists; archive cleanup and gzip compression keep archive contents and
are not modelled. -/
structure RotateState where
  archives : List (List Nat)
  active : List Nat
  currentSize : Nat
  currentDay : Int
  maxSizeBytes : Nat
  deriving Repr, DecidableEq

/-- Model of `rotateLocked`: close the active file, rename it to the timestamped
archive name, reopen a fresh active file and record the new day key. -/
def rotateLocked (st : RotateState) (day : Int) : RotateState :=
  { st with
      archives := st.archives ++ [st.active]
      active := []
      currentSize := 0
      currentDay := day }

/-- Model of `rotateIfNeededLocked` (logx): rotate when the local day changed, or
when the active file is non-empty and the incoming write would push it
past the size limit. -/
def rotateIfNeededLocked (st : RotateState) (incomingBytes : Nat) (day : Int) :
    RotateState :=
  if day ≠ st.currentDay
      ∨ (0 < st.currentSize ∧ st.maxSizeBytes < st.currentSize + incomingBytes)
  then rotateLocked st day
  else st

/-- Model of `AccessRotateWriter.Write`: rotate if needed, then append the whole
buffer to the active file and grow `currentSize`. -/
def rotateWrite (st : RotateState) (p : List Nat) (day : Int) : RotateState :=
  let st := rotateIfNeededLocked st p.length day
  { st with active := st.active ++ p, currentSize := st.currentSize + p.length }

/-- A sequence of `Write` calls, each tagged with the day key of its
`now()`. -/
def rotateWriteAll (st : RotateState) (ws : List (Int × List Nat)) : RotateState :=
  ws.foldl (fun s w => rotateWrite s w.2 w.1) st

/-! ## Usage / finish-reason extract validation (dslconfig validators) -/

/-- The `usage_extract` custom mode constant (`usageModeCustom`); its value
is pinned by the validator switch and by metadata_test. -/
def usageModeCustom : String := "custom"

/-- Model of `UsageExtractConfig` (fields as read by the validator; the struct
declaration sits outside the provided tree).  Expressions are kept
abstract: only nil-ness is consulted. -/
structure UsageExtractConfig where
  mode : String
  inputTokensExpr : Option String
  inputTokensPath : String
  outputTokensExpr : Option String
  outputTokensPath : String
  cacheReadTokensPath : String
  cacheWriteTokensPath : String
  deriving Repr, DecidableEq

/-- Model of `FinishReasonExtractConfig` (fields as read by the validator). -/
structure FinishReasonExtractConfig where
  mode : String
  finishReasonPath : String
  deriving Repr, DecidableEq

/-- The mode switch of `validateFinishReasonExtractConfig`: empty, openai,
anthropic and gemini pass; custom requires a path; anything else errors. -/
def finishModeCheck (mode p : String) : Except String Unit :=
  if mode = "" ∨ mode = "openai" ∨ mode = "anthropic" ∨ mode = "gemini" then
    Except.ok ()
  else if mode = usageModeCustom then
    if p = "" then
      Except.error "finish_reason_extract custom requires finish_reason_path"
    else Except.ok ()
  else Except.error "unsupported finish_reason_extract mode"

/-- Model of `validateFinishReasonExtractConfig` (part_020 lines 71-96). -/
def validateFinishReasonExtractConfig (cfg : FinishReasonExtractConfig) :
    Except String Unit :=
  let mode := goToLower (goTrim cfg.mode)
  let p := goTrim cfg.finishReasonPath
  if mode = "" ∧ p = "" then Except.ok ()
  else
    match finishModeCheck mode p with
    | Except.error e => Except.error e
    | Except.ok _ =>
      if p ≠ "" ∧ goStartsWith p "$." = false then
        Except.error "finish_reason_path must start with the JSONPath root"
      else Except.ok ()

/-- Model of `validateUsageExtractConfig` (part_020 lines 98-126): an empty mode
passes, any mode other than custom passes unconditionally; custom requires
an input and an output source and JSONPath-rooted path overrides. -/
def validateUsageExtractConfig (cfg : UsageExtractConfig) : Except String Unit :=
  let mode := goToLower (goTrim cfg.mode)
  if mode = "" then Except.ok ()
  else if mode ≠ usageModeCustom then Except.ok ()
  else if cfg.inputTokensExpr = none ∧ goTrim cfg.inputTokensPath = "" then
    Except.error "requires input_tokens expr or input_tokens_path"
  else if cfg.outputTokensExpr = none ∧ goTrim cfg.outputTokensPath = "" then
    Except.error "requires output_tokens expr or output_tokens_path"
  else if cfg.inputTokensPath ≠ "" ∧ goStartsWith (goTrim cfg.inputTokensPath) "$." = false then
    Except.error "input_tokens_path must start with the JSONPath root"
  else if cfg.outputTokensPath ≠ "" ∧ goStartsWith (goTrim cfg.outputTokensPath) "$." = false then
    Except.error "output_tokens_path must start with the JSONPath root"
  else if cfg.cacheReadTokensPath ≠ "" ∧ goStartsWith (goTrim cfg.cacheReadTokensPath) "$." = false then
    Except.error "cache_read_tokens_path must start with the JSONPath root"
  else if cfg.cacheWriteTokensPath ≠ "" ∧ goStartsWith (goTrim cfg.cacheWriteTokensPath) "$." = false then
    Except.error "cache_write_tokens_path must start with the JSONPath root"
  else Except.ok ()

/-- Model of `MatchUsage`: one match block carrying a usage extract override. -/
structure MatchUsage where
  api : String
  stream : Option Bool
  extract : UsageExtractConfig
  deriving Repr, DecidableEq

/-- Model of `ProviderUsage`: defaults plus ordered match blocks. -/
structure ProviderUsage where
  defaults : UsageExtractConfig
  matchBlocks : List MatchUsage
  deriving Repr, DecidableEq

/-- The loop of `validateProviderUsage` over the match blocks. -/
def validateUsageMatches : List MatchUsage → Except String Unit
  | [] => Except.ok ()
  | m :: rest =>
    match validateUsageExtractConfig m.extract with
    | Except.error e => Except.error e
    | Except.ok _ => validateUsageMatches rest

/-- Model of `validateProviderUsage` (part_020): defaults first, then each match. -/
def validateProviderUsage (u : ProviderUsage) : Except String Unit :=
  match validateUsageExtractConfig u.defaults with
  | Except.error e => Except.error e
  | Except.ok _ => validateUsageMatches u.matchBlocks

/-! ## Runtime phase selection (ProviderBalance in part_022; the response
phase from its test) -/

/-- Per-request metadata consulted by the selectors (`dslmeta.Meta`
restricted to the two fields `Select` reads). -/
structure Meta where
  api : String
  isStream : Bool
  deriving Repr, DecidableEq

/-- A DSL header operation (`HeaderOp`; fields per `applyHeaderOps`). -/
structure HeaderOp where
  op : String
  nameExpr : String
  valueExpr : String
  deriving Repr, DecidableEq

/-- Model of `BalanceQueryConfig` (part_022). -/
structure BalanceQueryConfig where
  mode : String
  method : String
  path : String
  balancePath : String
  balanceExpr : String
  usedPath : String
  usedExpr : String
  unit : String
  subscriptionPath : String
  usagePath : String
  headers : List HeaderOp
  deriving Repr, DecidableEq

/-- Model of `MatchBalance` (part_022). -/
structure MatchBalance where
  api : String
  stream : Option Bool
  query : BalanceQueryConfig
  deriving Repr, DecidableEq

/-- Model of `ProviderBalance` (part_022). -/
structure ProviderBalance where
  defaults : BalanceQueryConfig
  matchBlocks : List MatchBalance
  deriving Repr, DecidableEq

/-- The stream rejection of `selectMatch`: a set stream predicate that
differs from the request stream flag. -/
def streamMismatch (o : Option Bool) (s : Bool) : Bool :=
  match o with
  | some b => b != s
  | none => false

/-- Model of `ProviderBalance.selectMatch` (part_022 lines 380-391): walk the
matches in declared order, skip on api or stream mismatch, return the
first survivor. -/
def selectMatchList (api : String) (stream : Bool) :
    List MatchBalance → Option MatchBalance
  | [] => none
  | m :: rest =>
    if m.api ≠ "" ∧ m.api ≠ api then selectMatchList api stream rest
    else if streamMismatch m.stream stream then selectMatchList api stream rest
    else some m

/-- Model of `mergeBalanceConfig` (part_022 lines 393-429): non-empty (after
trimming) override fields replace the base fields; a non-empty override
header list replaces — not appends to — the base list. -/
def mergeBalanceConfig (base ov : BalanceQueryConfig) : BalanceQueryConfig :=
  { mode := if goTrim ov.mode ≠ "" then ov.mode else base.mode
    method := if goTrim ov.method ≠ "" then ov.method else base.method
    path := if goTrim ov.path ≠ "" then ov.path else base.path
    balancePath := if goTrim ov.balancePath ≠ "" then ov.balancePath else base.balancePath
    balanceExpr := if goTrim ov.balanceExpr ≠ "" then ov.balanceExpr else base.balanceExpr
    usedPath := if goTrim ov.usedPath ≠ "" then ov.usedPath else base.usedPath
    usedExpr := if goTrim ov.usedExpr ≠ "" then ov.usedExpr else base.usedExpr
    unit := if goTrim ov.unit ≠ "" then ov.unit else base.unit
    subscriptionPath :=
      if goTrim ov.subscriptionPath ≠ "" then ov.subscriptionPath
      else base.subscriptionPath
    usagePath := if goTrim ov.usagePath ≠ "" then ov.usagePath else base.usagePath
    headers := if 0 < ov.headers.length then ov.headers else base.headers }

/-- Model of `ProviderBalance.Select` (part_022 lines 362-378): nil meta or blank
api selects nothing; otherwise the defaults merged with the first matching
block; a blank resulting mode selects nothing. -/
def ProviderBalance.Select (p : ProviderBalance) (meta : Option Meta) :
    Option BalanceQueryConfig :=
  match meta with
  | none => none
  | some meta =>
    let api := goTrim meta.api
    if api = "" then none
    else
      let cfg :=
        match selectMatchList api meta.isStream p.matchBlocks with
        | some m => mergeBalanceConfig p.defaults m.query
        | none => p.defaults
      if goTrim cfg.mode = "" then none else some cfg

/-- A DSL JSON operation (`JSONOp`; fields per the select test). -/
structure JSONOp where
  op : String
  path : String
  valueExpr : String
  deriving Repr, DecidableEq

/-- An SSE conditional-delete rule (`SSEJSONDelIfRule`). -/
structure SSEJSONDelIfRule where
  condPath : String
  equalsValue : String
  delPath : String
  deriving Repr, DecidableEq

/-- Model of `ResponseDirective` (fields per the select test). -/
structure ResponseDirective where
  op : String
  mode : String
  jsonOps : List JSONOp
  sseJSONDelIf : List SSEJSONDelIfRule
  deriving Repr, DecidableEq

/-- Model of `MatchResponse`. -/
structure MatchResponse where
  api : String
  stream : Option Bool
  response : ResponseDirective
  deriving Repr, DecidableEq

/-- Model of `ProviderResponse`. -/
structure ProviderResponse where
  defaults : ResponseDirective
  matchBlocks : List MatchResponse
  deriving Repr, DecidableEq

/-- Modelled from the spec: the response-phase merge lives in a
runtime-select file that is not under the provided tree (only its test is).
Per spec section 4.1 (Selection), non-empty override fields replace the
base and list fields append; the appended lengths are pinned by
`TestProviderResponseSelect_MergeDirective`. -/
def mergeResponseDirective (base ov : ResponseDirective) : ResponseDirective :=
  { op := if goTrim ov.op ≠ "" then ov.op else base.op
    mode := if goTrim ov.mode ≠ "" then ov.mode else base.mode
    jsonOps := base.jsonOps ++ ov.jsonOps
    sseJSONDelIf := base.sseJSONDelIf ++ ov.sseJSONDelIf }

/-- Modelled from the spec: first-match walk of the response phase, same
selection rule as the balance phase (spec section 4.1). -/
def selectMatchResponseList (api : String) (stream : Bool) :
    List MatchResponse → Option MatchResponse
  | [] => none
  | m :: rest =>
    if m.api ≠ "" ∧ m.api ≠ api then selectMatchResponseList api stream rest
    else if streamMismatch m.stream stream then selectMatchResponseList api stream rest
    else some m

/-- Modelled from the spec: `ProviderResponse.Select` — defaults merged
with the first matching block (the test selects with a non-blank api). -/
def ProviderResponse.Select (p : ProviderResponse) (meta : Option Meta) :
    Option ResponseDirective :=
  match meta with
  | none => none
  | some meta =>
    let api := goTrim meta.api
    if api = "" then none
    else
      some (match selectMatchResponseList api meta.isStream p.matchBlocks with
        | some m => mergeResponseDirective p.defaults m.response
        | none => p.defaults)

/-- The match predicate as the claim words it: the api equals the meta api
(an empty match api matches any api) and the stream predicate equals the
stream flag when the predicate is set. -/
def balanceMatchPred (api : String) (stream : Bool) (m : MatchBalance) : Bool :=
  (m.api == "" || m.api == api)
    && (match m.stream with
        | none => true
        | some b => b == stream)

/-- The same claim-worded predicate for the response phase. -/
def responseMatchPred (api : String) (stream : Bool) (m : MatchResponse) : Bool :=
  (m.api == "" || m.api == api)
    && (match m.stream with
        | none => true
        | some b => b == stream)

/-! ## Providers directory: strict validation vs runtime load
(onr-core/pkg/dslconfig/validate_entry.go; onr/internal/onrserver/run.go) -/

/-- One entry of `os.ReadDir` on the providers directory. -/
structure DirEntry where
  name : String
  isDir : Bool
  deriving Repr, DecidableEq

/-- The outcome of `ValidateProviderFile` on one path, abstracting the
file contents on disk: the declared provider name, or a validation
error. -/
def FileValidator : Type := String → Except String String

/-- Model of `dslconfig.LoadResult`: loaded provider names and, for the runtime
loader, the invalid files skipped (validation warnings are not
modelled). -/
structure LoadResult where
  loadedProviders : List String
  skippedFiles : List String
  deriving Repr, DecidableEq

/-- Insertion into a sorted list, for the `sort.Strings` model. -/
def insertSorted (s : String) : List String → List String
  | [] => [s]
  | x :: xs => if s ≤ x then s :: x :: xs else x :: insertSorted s xs

/-- Model of `sort.Strings`. -/
def sortStrings (l : List String) : List String :=
  l.foldr insertSorted []

/-- The loop of `ValidateProvidersDir` (validate_entry.go lines 124-144):
skip directories and non-`.conf` entries; any file validation error fails
the whole load, as does a duplicate provider name. -/
def validateDirLoop (vf : FileValidator) :
    List DirEntry → List (String × String) → List String →
      Except String (List String)
  | [], _, loaded => Except.ok loaded
  | e :: rest, seen, loaded =>
    if e.isDir then validateDirLoop vf rest seen loaded
    else if goEndsWith e.name ".conf" = false then validateDirLoop vf rest seen loaded
    else
      match vf e.name with
      | Except.error err => Except.error err
      | Except.ok pname =>
        match seen.lookup pname with
        | some _ => Except.error ("duplicate provider name " ++ pname)
        | none => validateDirLoop vf rest ((pname, e.name) :: seen) (loaded ++ [pname])

/-- Model of `ValidateProvidersDir` (validate_entry.go lines 111-160): reading the
directory may fail; otherwise the strict loop runs and the loaded names
are sorted. -/
def ValidateProvidersDir (vf : FileValidator)
    (dir : Except String (List DirEntry)) : Except String (List String) :=
  match dir with
  | Except.error e => Except.error e
  | Except.ok entries =>
    match validateDirLoop vf entries [] [] with
    | Except.error e => Except.error e
    | Except.ok loaded => Except.ok (sortStrings loaded)

/-- The per-file walk of the runtime loader: valid `.conf` files are
loaded in order, invalid ones are collected as skipped. -/
def runtimeLoadList (vf : FileValidator) : List DirEntry → List String × List String
  | [] => ([], [])
  | e :: rest =>
    let r := runtimeLoadList vf rest
    if e.isDir then r
    else if goEndsWith e.name ".conf" = false then r
    else
      match vf e.name with
      | Except.error _ => (r.1, e.name :: r.2)
      | Except.ok pname => (pname :: r.1, r.2)

/-- Modelled from the spec: `Registry.ReloadFromDir` is not under the
provided tree (only its callers and the contrast comment on
`ValidateProvidersDir`, which says runtime loading, unlike validation, is
not strict).  Per the spec reload sentence and the
`skipped_invalid_files` logging of run.go, the runtime loader skips
invalid files, reports them in `LoadResult.SkippedFiles`, publishes the
valid providers, and errors only when the directory itself cannot be
read. -/
def ReloadFromDir (vf : FileValidator) (dir : Except String (List DirEntry)) :
    Except String (List String × LoadResult) :=
  match dir with
  | Except.error e => Except.error e
  | Except.ok entries =>
    let r := runtimeLoadList vf entries
    Except.ok (r.1, ⟨r.1, r.2⟩)

/-- The boot-time load of `Run` (onr/internal/onrserver/run.go lines
57-62): startup aborts only when `ReloadFromDir` itself errors; skipped
files are merely logged (`logSkippedProviders` with `reloading=false`) and
startup continues. -/
def bootLoadProviders (vf : FileValidator) (dir : Except String (List DirEntry)) :
    Except String (List String × LoadResult) :=
  match ReloadFromDir vf dir with
  | Except.error e => Except.error ("load providers dir: " ++ e)
  | Except.ok r => Except.ok r

/-- Model of `reloadProvidersRuntime` (run.go lines 215-230): reload through the
same `ReloadFromDir`; on error the previously published registry stays in
force. -/
def reloadProvidersRuntime (vf : FileValidator)
    (dir : Except String (List DirEntry)) (current : List String) :
    List String × Except String LoadResult :=
  match ReloadFromDir vf dir with
  | Except.error e => (current, Except.error ("reload providers dir: " ++ e))
  | Except.ok (reg, res) => (reg, Except.ok res)

/-- The `.conf` files of a directory listing, in order. -/
def confFiles (entries : List DirEntry) : List String :=
  (entries.filter (fun e => !e.isDir && goEndsWith e.name ".conf")).map
    (fun e => e.name)

/-- Whether a validation outcome is an error. -/
def isErr : Except String String → Bool
  | Except.error _ => true
  | Except.ok _ => false

/-- A two-file demo directory validator: `good.conf` parses to provider
`good`, anything else is malformed. -/
def demoVf : FileValidator := fun path =>
  if path = "good.conf" then Except.ok "good" else Except.error "parse error"

/-! ## Restricted JSONPath readers (onr-core/pkg/jsonutil/value.go) -/

/-- A decoded Go JSON value (`any` after `encoding/json`, or hand-built):
`float` models float64/float32 (as a rational), `int` models
int/int64/int32, `number` models `json.Number`. -/
inductive JValue where
  | null
  | bool (b : Bool)
  | float (q : Rat)
  | int (n : Int)
  | number (s : String)
  | str (s : String)
  | arr (elems : List JValue)
  | obj (fields : List (String × JValue))
  deriving Repr

/-- Value of a non-empty all-digit run (`strconv` digit parsing). -/
def digitsVal (l : List Char) : Option Nat :=
  if l.isEmpty then none
  else if l.all Char.isDigit then
    some (l.foldl (fun a c => a * 10 + (c.toNat - 48)) 0)
  else none

/-- Value of a possibly-empty digit run. -/
def digitsValD (l : List Char) : Nat :=
  l.foldl (fun a c => a * 10 + (c.toNat - 48)) 0

/-- Model of `strconv.Atoi` (and `json.Number.Int64`): optional sign then decimal
digits.  Overflow is not modelled (arbitrary precision). -/
def goAtoi (s : String) : Option Int :=
  match s.data with
  | '-' :: rest => (digitsVal rest).map (fun n => -(n : Int))
  | '+' :: rest => (digitsVal rest).map (fun n => (n : Int))
  | l => (digitsVal l).map (fun n => (n : Int))

/-- Unsigned decimal with optional fraction (`digits`, `digits.digits`,
`.digits`, `digits.`). -/
def parseUnsigned (l : List Char) : Option Rat :=
  let ip := l.takeWhile Char.isDigit
  let rest := l.dropWhile Char.isDigit
  match rest with
  | [] => if ip.isEmpty then none else some ((digitsValD ip : Nat) : Rat)
  | '.' :: fp =>
    if fp.all Char.isDigit ∧ ¬(ip.isEmpty ∧ fp.isEmpty) then
      some (((digitsValD ip : Nat) : Rat)
        + ((digitsValD fp : Nat) : Rat) / ((10 : Rat) ^ fp.length))
    else none
  | _ => none

/-- Model of `strconv.ParseFloat`, restricted to plain signed decimal forms; the
exponent and special forms are outside the fragment exercised here. -/
def goParseFloat (s : String) : Option Rat :=
  match s.data with
  | '-' :: rest => (parseUnsigned rest).map (fun q => -q)
  | '+' :: rest => parseUnsigned rest
  | l => parseUnsigned l

/-- Go conversion `int(f)`: truncation toward zero. -/
def ratTrunc (q : Rat) : Int := Int.tdiv q.num (q.den : Int)

mutual
/-- Model of `jsonutil.CoerceInt` (value.go lines 19-43): float truncation, ints,
integral `json.Number`, trimmed numeric strings, sums over arrays, 0
otherwise. -/
def CoerceInt : JValue → Int
  | JValue.float q => ratTrunc q
  | JValue.int n => n
  | JValue.number s =>
    (match goAtoi s with
     | some i => i
     | none => 0)
  | JValue.str s =>
    (match goAtoi (goTrim s) with
     | some i => i
     | none => 0)
  | JValue.arr xs => coerceIntSum xs
  | _ => 0

/-- The summation loop of `CoerceInt` over an array. -/
def coerceIntSum : List JValue → Int
  | [] => 0
  | x :: xs => CoerceInt x + coerceIntSum xs
end

/-- Model of `jsonutil.CoerceFloat` (value.go lines 56-81): floats, ints,
`json.Number` (float parse then integer parse), trimmed numeric strings,
0 otherwise (no array case). -/
def CoerceFloat : JValue → Rat
  | JValue.float q => q
  | JValue.int n => (n : Rat)
  | JValue.number s =>
    (match goParseFloat s with
     | some q => q
     | none =>
       match goAtoi s with
       | some i => (i : Rat)
       | none => 0)
  | JValue.str s =>
    (match goParseFloat (goTrim s) with
     | some q => q
     | none => 0)
  | _ => 0

/-- Go map lookup `m[name]` on a decoded object (keys unique after JSON
decoding). -/
def lookupField : List (String × JValue) → String → Option JValue
  | [], _ => none
  | (k, v) :: rest, name => if k = name then some v else lookupField rest name

/-- Model of `jsonutil.splitIndex` (value.go lines 237-256): split a segment
`name[idx]` into `(name, idx, hasIdx, isStar)`. -/
def splitIndex (s : String) : String × Int × Bool × Bool :=
  let cs := s.data
  match cs.findIdx? (fun c => c == '['), cs.findIdx? (fun c => c == ']') with
  | some op, some cl =>
    if cl < op then (s, 0, false, false)
    else
      let name : String := ⟨cs.take op⟩
      let inner := goTrim ⟨(cs.take cl).drop (op + 1)⟩
      if inner = "*" then (name, 0, true, true)
      else
        match goAtoi inner with
        | some n => (name, n, true, false)
        | none => (name, 0, false, false)
  | _, _ => (s, 0, false, false)

/-- The named-child descent shared by each segment step: with a name,
look the key up in an object (wrong types fail); without, stay in
place. -/
def stepName (name : String) (v : JValue) : Option JValue :=
  if name ≠ "" then
    match v with
    | JValue.obj fields => lookupField fields name
    | _ => none
  else some v

/-- Model of `jsonutil.collectPathValues` (value.go lines 188-235): walk the
segments; a missing key, wrong-typed value or out-of-range index yields
`none`; a wildcard collects over every element, skipping elements whose
remaining path fails. -/
def collectPathValues : List String → JValue → Option (List JValue)
  | [], cur => some [cur]
  | seg0 :: rest, cur =>
    let seg := goTrim seg0
    if seg = "" then none
    else
      let r := splitIndex seg
      match stepName r.1 cur with
      | none => none
      | some cur2 =>
        if r.2.2.1 = false then collectPathValues rest cur2
        else
          match cur2 with
          | JValue.arr xs =>
            if r.2.2.2 = true then
              if rest.isEmpty then some xs
              else some (xs.flatMap (fun x => (collectPathValues rest x).getD []))
            else if r.2.1 < 0 ∨ (xs.length : Int) ≤ r.2.1 then none
            else collectPathValues rest (xs.getD r.2.1.toNat JValue.null)
          | _ => none

/-- Model of `strings.Split` on `"."` over characters. -/
def splitDotsChars : List Char → List (List Char)
  | [] => [[]]
  | c :: cs =>
    let r := splitDotsChars cs
    if c == '.' then [] :: r
    else
      match r with
      | h :: t => (c :: h) :: t
      | [] => [[c]]

/-- Model of `strings.Split(s, ".")`. -/
def goSplitDots (s : String) : List String :=
  (splitDotsChars s.data).map (fun l => (⟨l⟩ : String))

/-- Model of `jsonutil.GetValuesByPath` (value.go lines 121-128): require a
trimmed path starting with the JSONPath root, split on dots and
collect. -/
def GetValuesByPath (root : JValue) (path : String) : Option (List JValue) :=
  let p := goTrim path
  if p = "" ∨ goStartsWith p "$." = false then none
  else collectPathValues (goSplitDots (goStripLeading p "$.")) root

/-- Model of `jsonutil.GetIntByPath` (value.go lines 84-97): 0 when the path does
not resolve, else the sum of the coerced matched values. -/
def GetIntByPath (root : List (String × JValue)) (path : String) : Int :=
  match GetValuesByPath (JValue.obj root) path with
  | none => 0
  | some vals => (vals.map CoerceInt).sum

/-- Model of `jsonutil.GetFloatByPath` (value.go lines 99-108). -/
def GetFloatByPath (root : List (String × JValue)) (path : String) : Rat :=
  match GetValuesByPath (JValue.obj root) path with
  | none => 0
  | some vals => (vals.map CoerceFloat).sum

/-- The values matched by a restricted JSONPath, written from the claim:
dotted segments descend objects, `[n]` selects by index, `[*]` fans out
over every element of an array; a missing key, an out-of-range index or a
wrong-typed intermediate value matches nothing. -/
def matchedValues : List String → JValue → List JValue
  | [], v => [v]
  | seg0 :: rest, v =>
    let seg := goTrim seg0
    if seg = "" then []
    else
      let r := splitIndex seg
      match stepName r.1 v with
      | none => []
      | some v2 =>
        if r.2.2.1 = false then matchedValues rest v2
        else
          match v2 with
          | JValue.arr xs =>
            if r.2.2.2 = true then
              if rest.isEmpty then xs
              else xs.flatMap (fun x => matchedValues rest x)
            else if r.2.1 < 0 ∨ (xs.length : Int) ≤ r.2.1 then []
            else matchedValues rest (xs.getD r.2.1.toNat JValue.null)
          | _ => []

/-- The claim-side matched values of a full path string. -/
def matchedValuesByPath (root : JValue) (path : String) : List JValue :=
  let p := goTrim path
  if p = "" ∨ goStartsWith p "$." = false then []
  else matchedValues (goSplitDots (goStripLeading p "$.")) root

/-! ## Theorems -/

/-- C1: the auth middleware takes the credential from `Authorization:
Bearer`, else `x-api-key`, else `x-goog-api-key`, in that order — and from
nothing else: the query parameter named by the claim is never consulted, so
the extraction is independent of it. -/
theorem c1_credential_order (c : RequestCtx) :
    extractCredential c =
      (let bearer :=
        if goStartsWith (goTrim c.authorization) "Bearer "
        then goTrim (goStripLeading (goTrim c.authorization) "Bearer ") else ""
       if bearer ≠ "" then bearer
       else if goTrim c.xApiKey ≠ "" then goTrim c.xApiKey
       else goTrim c.xGoogApiKey)
    ∧ (∀ q q' : String,
        extractCredential { c with queryKey := q }
          = extractCredential { c with queryKey := q' }) := by
  constructor
  · simp only [extractCredential]
    split <;> split <;> simp_all
  · intro q q'
    simp [extractCredential]

/-- C1 counterexample: a request carrying the credential only in the query
parameter.  The claimed extraction (with the query fallback) yields the
credential, the code yields the empty string. -/
theorem c1_query_fallback_counterexample :
    extractCredential ⟨"", "", "", "qp-secret"⟩ = ""
    ∧ extractCredentialClaim ⟨"", "", "", "qp-secret"⟩ = "qp-secret"
    ∧ extractCredential ⟨"", "", "", "qp-secret"⟩
        ≠ extractCredentialClaim ⟨"", "", "", "qp-secret"⟩ := by
  refine ⟨by decide, by decide, by decide⟩

/-- C6: when the credential fails the master-key comparison, the access-key
pool and token-key resolution, the middleware aborts with HTTP 401 and
exactly the unauthorized error body (message `unauthorized`, type
`invalid_request_error`, code `invalid_api_key`); the `abort` outcome means
no downstream handler runs. -/
theorem c6_unauthorized_response (masterKey : String)
    (m : Option (String → Option String)) (allowBYOKWithoutK : Bool)
    (isTokenKey : String → Bool)
    (parse : Bool → String → Option (TokenClaims × String))
    (c : RequestCtx)
    (hMaster : masterAccepts masterKey (extractCredential c) = false)
    (hAccess : accessMatch m (extractCredential c) = none)
    (hToken : tokenAccept masterKey m allowBYOKWithoutK isTokenKey parse
        (extractCredential c) = none) :
    middlewareAuth masterKey m allowBYOKWithoutK isTokenKey parse c
      = AuthOutcome.abort 401 unauthorizedBody := by
  simp [middlewareAuth, hMaster, hAccess, hToken]

/-- Witness for C6: a concrete request whose credential fails every check. -/
theorem c6_unauthorized_response_witness :
    middlewareAuth "mk" none false (fun s => goStartsWith s "onr:v1?")
        (fun _ _ => none) ⟨"Bearer wrong", "", "", ""⟩
      = AuthOutcome.abort 401 unauthorizedBody := by
  exact c6_unauthorized_response "mk" none false
    (fun s => goStartsWith s "onr:v1?") (fun _ _ => none)
    ⟨"Bearer wrong", "", "", ""⟩ (by decide) rfl (by decide)

/-- C9: with an empty or whitespace-only master key the master-key branch
accepts nothing — in particular not the empty credential — and any accepted
request was accepted by the access-key pool or by the token-key branch. -/
theorem c9_empty_master_key_safe (masterKey : String)
    (h : goTrim masterKey = "")
    (m : Option (String → Option String)) (allowBYOKWithoutK : Bool)
    (isTokenKey : String → Bool)
    (parse : Bool → String → Option (TokenClaims × String))
    (c : RequestCtx) :
    (∀ cred : String, masterAccepts masterKey cred = false)
    ∧ masterAccepts masterKey "" = false
    ∧ middlewareAuth masterKey m allowBYOKWithoutK isTokenKey parse c
        ≠ AuthOutcome.nextMaster
    ∧ (∀ o, middlewareAuth masterKey m allowBYOKWithoutK isTokenKey parse c = o →
        o = AuthOutcome.abort 401 unauthorizedBody
        ∨ (∃ name, accessMatch m (extractCredential c) = some name
            ∧ o = AuthOutcome.nextAccessKey name)
        ∨ (∃ claims,
            tokenAccept masterKey m allowBYOKWithoutK isTokenKey parse
              (extractCredential c) = some claims
            ∧ o = AuthOutcome.nextToken claims)) := by
  have hm : ∀ cred : String, masterAccepts masterKey cred = false := by
    intro cred
    simp [masterAccepts, h]
  refine ⟨hm, hm "", ?_, ?_⟩
  · simp only [middlewareAuth, hm]
    cases ham : accessMatch m (extractCredential c) with
    | none =>
      cases htk : tokenAccept masterKey m allowBYOKWithoutK isTokenKey parse
          (extractCredential c) <;> simp [ham, htk]
    | some name => simp [ham]
  · intro o ho
    simp only [middlewareAuth, hm, Bool.false_eq_true, if_false] at ho
    revert ho
    cases ham : accessMatch m (extractCredential c) with
    | none =>
      cases htk : tokenAccept masterKey m allowBYOKWithoutK isTokenKey parse
          (extractCredential c) with
      | none => intro ho; exact Or.inl ho.symm
      | some claims =>
        intro ho
        exact Or.inr (Or.inr ⟨claims, rfl, ho.symm⟩)
    | some name =>
      intro ho
      exact Or.inr (Or.inl ⟨name, rfl, ho.symm⟩)

/-- Witness for C9: a whitespace-only master key, a request presenting the
empty credential, no matcher and no parser: the request is rejected. -/
theorem c9_empty_master_key_safe_witness :
    masterAccepts "   " "" = false
    ∧ middlewareAuth "   " none false (fun s => goStartsWith s "onr:v1?")
        (fun _ _ => none) ⟨"", "", "", ""⟩
        ≠ AuthOutcome.nextMaster := by
  have h := c9_empty_master_key_safe "   " (by decide) none false
    (fun s => goStartsWith s "onr:v1?") (fun _ _ => none) ⟨"", "", "", ""⟩
  exact ⟨h.2.1, h.2.2.1⟩


/-- Helper: fixed-width rendering has exactly the requested width. -/
theorem padDigits_length (w n : Nat) : (padDigits w n).length = w := by
  induction w generalizing n with
  | zero => rfl
  | succ w ih => simp [padDigits, ih]

/-- Helper: the digit table only yields digit characters. -/
theorem digitChar_isDigit (n : Nat) : (digitChar n).isDigit = true := by
  unfold digitChar
  split <;> decide

/-- Helper: every character of a fixed-width rendering is a digit. -/
theorem padDigits_all_digit (w n : Nat) :
    ∀ c ∈ padDigits w n, c.isDigit = true := by
  induction w generalizing n with
  | zero => intro c hc; simp [padDigits] at hc
  | succ w ih =>
    intro c hc
    simp only [padDigits, List.mem_append, List.mem_singleton] at hc
    rcases hc with hc | hc
    · exact ih _ c hc
    · subst hc; exact digitChar_isDigit n

/-- C7 (amended): a generated request id is exactly 28 decimal digits — 20
timestamp digits (`yyyymmddHHMMSS` plus six fractional digits) followed by
8 random digits; a present header is echoed after whitespace trimming, and
a missing or whitespace-only header is replaced by the generated id. -/
theorem c7_request_id_generation (t : GoTime) (rand : Nat → Fin 10)
    (_hy : t.year < 10000) :
    (Gen t rand).length = 28
    ∧ (timeString t).length = 20
    ∧ (∀ c ∈ Gen t rand, c.isDigit = true)
    ∧ requestIDMiddleware ⟨Gen t rand⟩ none = ⟨Gen t rand⟩
    ∧ (∀ v, goTrim v = "" → requestIDMiddleware ⟨Gen t rand⟩ (some v) = ⟨Gen t rand⟩)
    ∧ (∀ v, goTrim v ≠ "" → requestIDMiddleware ⟨Gen t rand⟩ (some v) = goTrim v) := by
  refine ⟨?_, ?_, ?_, ?_, ?_, ?_⟩
  · simp [Gen, timeString, randomDigits, padDigits_length]
  · simp [timeString, padDigits_length]
  · intro c hc
    simp only [Gen, List.mem_append] at hc
    rcases hc with hc | hc
    · simp only [timeString, List.mem_append] at hc
      rcases hc with ((((((hc | hc) | hc) | hc) | hc) | hc) | hc) <;>
        exact padDigits_all_digit _ _ c hc
    · simp only [randomDigits, List.mem_map] at hc
      obtain ⟨i, _, rfl⟩ := hc
      exact digitChar_isDigit _
  · have h : goTrim "" = "" := by decide
    simp [requestIDMiddleware, h]
  · intro v hv
    simp [requestIDMiddleware, hv]
  · intro v hv
    simp [requestIDMiddleware, hv]

/-- Witness for C7: a concrete time and random source. -/
theorem c7_request_id_generation_witness :
    (2026 : Nat) < 10000
    ∧ (Gen ⟨2026, 1, 2, 3, 4, 5, 123456⟩ (fun _ => ⟨7, by norm_num⟩)).length = 28 := by
  exact ⟨by norm_num,
    (c7_request_id_generation ⟨2026, 1, 2, 3, 4, 5, 123456⟩ _ (by norm_num)).1⟩

/-- C7 counterexample: a header value with surrounding whitespace is echoed
trimmed, not unchanged. -/
theorem c7_echo_trim_counterexample :
    requestIDMiddleware "generated-id" (some " rid-1 ") = "rid-1"
    ∧ requestIDMiddleware "generated-id" (some " rid-1 ") ≠ " rid-1 " := by
  exact ⟨by decide, by decide⟩

/-- C8: for every streamed passthrough response, the recorded upstream
section and the recorded proxy section come from the same single
size-capped buffer, hence are identical, truncation flag included. -/
theorem c8_dump_sections_equal (dumpEnabled : Bool) (maxBytes : Nat)
    (body : List (List Nat)) :
    (streamPassthrough dumpEnabled maxBytes body).upstream
      = (streamPassthrough dumpEnabled maxBytes body).proxy := by
  simp only [streamPassthrough]
  split <;> rfl

/-- C4 (amended): for every writer state and write, a rotation happens
before any write whose day key differs from the active file, and before
any write that would push a non-empty active file past the size limit; and
every write lands contiguously in exactly one file — the bytes of a write
never reach the archives, so no log line is split across files. -/
theorem c4_rotate_invariants (st : RotateState) (p : List Nat) (day : Int) :
    (day ≠ st.currentDay → rotateWrite st p day
        = { archives := st.archives ++ [st.active], active := p,
            currentSize := p.length, currentDay := day,
            maxSizeBytes := st.maxSizeBytes })
    ∧ (0 < st.currentSize → st.maxSizeBytes < st.currentSize + p.length →
        (rotateWrite st p day).active = p
        ∧ (rotateWrite st p day).archives = st.archives ++ [st.active])
    ∧ ((rotateWrite st p day).active = st.active ++ p
        ∨ (rotateWrite st p day).active = p)
    ∧ ((rotateWrite st p day).archives = st.archives
        ∨ (rotateWrite st p day).archives = st.archives ++ [st.active]) := by
  by_cases hrot : day ≠ st.currentDay
      ∨ (0 < st.currentSize ∧ st.maxSizeBytes < st.currentSize + p.length)
  · refine ⟨?_, ?_, ?_, ?_⟩ <;>
      simp [rotateWrite, rotateIfNeededLocked, rotateLocked, hrot]
  · have hday : ¬ day ≠ st.currentDay := fun h => hrot (Or.inl h)
    refine ⟨fun h => absurd h hday, fun h1 h2 => absurd (Or.inr ⟨h1, h2⟩) hrot, ?_, ?_⟩ <;>
      simp [rotateWrite, rotateIfNeededLocked, hrot]

/-- Witness for C4: a non-empty active file of one byte with a one-byte
limit; a two-byte write rotates first and lands whole in the fresh file. -/
theorem c4_rotate_invariants_witness :
    (rotateWrite ⟨[], [7], 1, 0, 1⟩ [8, 9] 0).active = [8, 9]
    ∧ (rotateWrite ⟨[], [7], 1, 0, 1⟩ [8, 9] 0).archives = [[7]] := by
  have h := (c4_rotate_invariants ⟨[], [7], 1, 0, 1⟩ [8, 9] 0).2.1
    (by norm_num) (by norm_num)
  exact ⟨h.1, by simpa using h.2⟩

/-- Helper: a write that triggers no rotation only appends to the active
file. -/
theorem rotateWrite_of_no_rotation (st : RotateState) (p : List Nat) (day : Int)
    (h : ¬ (day ≠ st.currentDay
      ∨ (0 < st.currentSize ∧ st.maxSizeBytes < st.currentSize + p.length))) :
    rotateWrite st p day
      = { st with active := st.active ++ p,
                  currentSize := st.currentSize + p.length } := by
  rw [rotateWrite, rotateIfNeededLocked, if_neg h]

/-- C4 counterexample: a fresh (empty) active file with a 1 MiB limit
receives a single same-day write of 1 MiB + 1 bytes: no rotation happens
(the size trigger requires `currentSize > 0`) and the active file exceeds
the limit, against the claim that a rotation precedes every write that
would exceed the size limit. -/
theorem c4_empty_file_size_counterexample :
    (rotateWrite ⟨[], [], 0, 0, 1024 * 1024⟩
        (List.replicate (1024 * 1024 + 1) 0) 0).archives = []
    ∧ (rotateWrite ⟨[], [], 0, 0, 1024 * 1024⟩
        (List.replicate (1024 * 1024 + 1) 0) 0).active.length = 1024 * 1024 + 1
    ∧ (1024 * 1024 : Nat) < 1024 * 1024 + 1 := by
  have key : ∀ p : List Nat, p.length = 1024 * 1024 + 1 →
      (rotateWrite ⟨[], [], 0, 0, 1024 * 1024⟩ p 0).archives = []
      ∧ (rotateWrite ⟨[], [], 0, 0, 1024 * 1024⟩ p 0).active.length
          = 1024 * 1024 + 1 := by
    intro p hp
    have h : ¬ ((0 : Int) ≠ (0 : Int)
        ∨ (0 < (0 : Nat) ∧ 1024 * 1024 < 0 + p.length)) := by
      push_neg
      exact ⟨rfl, fun hh => absurd hh (by norm_num)⟩
    rw [rotateWrite_of_no_rotation _ _ _ h]
    exact ⟨rfl, by simp [hp]⟩
  exact ⟨(key _ (List.length_replicate _ _)).1,
    (key _ (List.length_replicate _ _)).2, by norm_num⟩

/-- Helper: a passing finish-reason mode switch means the mode is one of
the allowed ones. -/
theorem finishModeCheck_ok_mem (mode p : String)
    (h : finishModeCheck mode p = Except.ok ()) :
    mode = "" ∨ mode = "openai" ∨ mode = "anthropic" ∨ mode = "gemini"
      ∨ mode = usageModeCustom := by
  unfold finishModeCheck at h
  split_ifs at h with h1 h2 h3
  · tauto
  · exact Or.inr (Or.inr (Or.inr (Or.inr h2)))

/-- C5 (amended): finish-reason extract validation only passes modes in
the closed set (empty, openai, anthropic, gemini, custom, compared after
trimming and lowercasing); usage extract validation checks only the
custom mode — any other non-empty mode string passes unchecked. -/
theorem c5_extract_mode_validation (f : FinishReasonExtractConfig)
    (u : UsageExtractConfig) :
    (validateFinishReasonExtractConfig f = Except.ok () →
      goToLower (goTrim f.mode)
        ∈ (["", "openai", "anthropic", "gemini", "custom"] : List String))
    ∧ (goToLower (goTrim u.mode) ≠ "" →
        goToLower (goTrim u.mode) ≠ usageModeCustom →
        validateUsageExtractConfig u = Except.ok ()) := by
  constructor
  · intro h
    simp only [validateFinishReasonExtractConfig] at h
    by_cases h0 : goToLower (goTrim f.mode) = "" ∧ goTrim f.finishReasonPath = ""
    · simp [h0.1]
    · rw [if_neg h0] at h
      cases hfc : finishModeCheck (goToLower (goTrim f.mode))
          (goTrim f.finishReasonPath) with
      | error e => rw [hfc] at h; exact absurd h (by simp)
      | ok v =>
        cases v
        have hmem := finishModeCheck_ok_mem _ _ hfc
        simpa [usageModeCustom] using hmem
  · intro h1 h2
    simp only [validateUsageExtractConfig]
    rw [if_neg h1, if_pos h2]

/-- Witness for C5: concrete configs exercising both directions. -/
theorem c5_extract_mode_validation_witness :
    validateUsageExtractConfig ⟨"gemini", none, "", none, "", "", ""⟩ = Except.ok ()
    ∧ goToLower (goTrim "openai")
        ∈ (["", "openai", "anthropic", "gemini", "custom"] : List String) := by
  constructor
  · exact (c5_extract_mode_validation ⟨"openai", "$.x"⟩
      ⟨"gemini", none, "", none, "", "", ""⟩).2 (by decide) (by decide)
  · exact (c5_extract_mode_validation ⟨"openai", "$.x"⟩
      ⟨"gemini", none, "", none, "", "", ""⟩).1 (by rfl)

/-- C5 counterexample: a usage-extract mode outside the documented closed
set passes validation — `validateUsageExtractConfig` accepts any mode
other than `custom` — so validation does not error on unknown usage-extract
modes, against the claim. -/
theorem c5_usage_mode_counterexample :
    validateUsageExtractConfig ⟨"bogus", none, "", none, "", "", ""⟩ = Except.ok ()
    ∧ validateProviderUsage ⟨⟨"bogus", none, "", none, "", "", ""⟩, []⟩ = Except.ok ()
    ∧ "bogus" ∉ (["openai", "anthropic", "gemini", "custom"] : List String) := by
  refine ⟨by rfl, by rfl, by decide⟩

/-- Helper: the skip conditions of the first-match walk are exactly the
negation of the claim-worded predicate (balance phase). -/
theorem balanceMatchPred_false_iff (api : String) (stream : Bool) (m : MatchBalance) :
    balanceMatchPred api stream m = false
      ↔ ((m.api ≠ "" ∧ m.api ≠ api) ∨ streamMismatch m.stream stream = true) := by
  cases hs : m.stream with
  | none => simp [balanceMatchPred, streamMismatch, hs]
  | some b =>
    simp [balanceMatchPred, streamMismatch, hs]
    by_cases hb : b = stream <;> simp [hb]

/-- Helper: the balance first-match walk is `List.find?` of the
claim-worded predicate. -/
theorem selectMatchList_eq_find (api : String) (stream : Bool)
    (ms : List MatchBalance) :
    selectMatchList api stream ms = ms.find? (balanceMatchPred api stream) := by
  induction ms with
  | nil => rfl
  | cons m rest ih =>
    by_cases h1 : m.api ≠ "" ∧ m.api ≠ api
    · have hp : balanceMatchPred api stream m = false :=
        (balanceMatchPred_false_iff api stream m).2 (Or.inl h1)
      simp [selectMatchList, h1, List.find?, hp, ih]
    · by_cases h2 : streamMismatch m.stream stream = true
      · have hp : balanceMatchPred api stream m = false :=
          (balanceMatchPred_false_iff api stream m).2 (Or.inr h2)
        simp [selectMatchList, h1, h2, List.find?, hp, ih]
      · have hp : balanceMatchPred api stream m = true := by
          cases hv : balanceMatchPred api stream m with
          | true => rfl
          | false =>
            rcases (balanceMatchPred_false_iff api stream m).1 hv with hc | hc
            · exact absurd hc h1
            · exact absurd hc h2
        simp [selectMatchList, h1, h2, List.find?, hp]

/-- Helper: same for the response phase. -/
theorem responseMatchPred_false_iff (api : String) (stream : Bool) (m : MatchResponse) :
    responseMatchPred api stream m = false
      ↔ ((m.api ≠ "" ∧ m.api ≠ api) ∨ streamMismatch m.stream stream = true) := by
  cases hs : m.stream with
  | none => simp [responseMatchPred, streamMismatch, hs]
  | some b =>
    simp [responseMatchPred, streamMismatch, hs]
    by_cases hb : b = stream <;> simp [hb]

/-- Helper: the response first-match walk is `List.find?` of the
claim-worded predicate. -/
theorem selectMatchResponseList_eq_find (api : String) (stream : Bool)
    (ms : List MatchResponse) :
    selectMatchResponseList api stream ms = ms.find? (responseMatchPred api stream) := by
  induction ms with
  | nil => rfl
  | cons m rest ih =>
    by_cases h1 : m.api ≠ "" ∧ m.api ≠ api
    · have hp : responseMatchPred api stream m = false :=
        (responseMatchPred_false_iff api stream m).2 (Or.inl h1)
      simp [selectMatchResponseList, h1, List.find?, hp, ih]
    · by_cases h2 : streamMismatch m.stream stream = true
      · have hp : responseMatchPred api stream m = false :=
          (responseMatchPred_false_iff api stream m).2 (Or.inr h2)
        simp [selectMatchResponseList, h1, h2, List.find?, hp, ih]
      · have hp : responseMatchPred api stream m = true := by
          cases hv : responseMatchPred api stream m with
          | true => rfl
          | false =>
            rcases (responseMatchPred_false_iff api stream m).1 hv with hc | hc
            · exact absurd hc h1
            · exact absurd hc h2
        simp [selectMatchResponseList, h1, h2, List.find?, hp]

/-- C3 (amended): each phase selector returns the first match in declared
order whose api equals the meta api (empty api is a wildcard) and whose
stream predicate, when set, equals the stream flag — never a later match —
and the selected directive is the defaults merged-overridden by that match:
non-empty override fields replace the base; in the response phase list
fields append, while in the balance phase a non-empty override header list
replaces the base list. -/
theorem c3_select_first_match_merge :
    (∀ api stream ms, selectMatchList api stream ms
        = ms.find? (balanceMatchPred api stream))
    ∧ (∀ p meta, ProviderBalance.Select p (some meta)
        = (if goTrim meta.api = "" then none
           else
             let cfg :=
               match p.matchBlocks.find? (balanceMatchPred (goTrim meta.api) meta.isStream) with
               | some m => mergeBalanceConfig p.defaults m.query
               | none => p.defaults
             if goTrim cfg.mode = "" then none else some cfg))
    ∧ (∀ base ov, (mergeBalanceConfig base ov).headers
          = (if ov.headers.isEmpty then base.headers else ov.headers)
        ∧ (mergeBalanceConfig base ov).mode
          = (if goTrim ov.mode = "" then base.mode else ov.mode)
        ∧ (mergeBalanceConfig base ov).path
          = (if goTrim ov.path = "" then base.path else ov.path))
    ∧ (∀ api stream ms, selectMatchResponseList api stream ms
        = ms.find? (responseMatchPred api stream))
    ∧ (∀ base ov, (mergeResponseDirective base ov).jsonOps
          = base.jsonOps ++ ov.jsonOps
        ∧ (mergeResponseDirective base ov).sseJSONDelIf
          = base.sseJSONDelIf ++ ov.sseJSONDelIf) := by
  refine ⟨selectMatchList_eq_find, ?_, ?_, selectMatchResponseList_eq_find, ?_⟩
  · intro p meta
    simp only [ProviderBalance.Select, selectMatchList_eq_find]
  · intro base ov
    refine ⟨?_, ?_, ?_⟩
    · simp only [mergeBalanceConfig]
      rcases ov.headers with _ | ⟨h, t⟩ <;> simp
    · simp only [mergeBalanceConfig]
      by_cases h : goTrim ov.mode = "" <;> simp [h]
    · simp only [mergeBalanceConfig]
      by_cases h : goTrim ov.path = "" <;> simp [h]
  · intro base ov
    exact ⟨rfl, rfl⟩

/-- C3 counterexample: in the balance phase a non-empty override header
list replaces the base list instead of appending to it. -/
theorem c3_balance_headers_replace_counterexample :
    ((ProviderBalance.Select
        ⟨⟨"custom", "", "", "", "", "", "", "", "", "", [⟨"header_set", "a", "1"⟩]⟩,
         [⟨"", none, ⟨"", "", "", "", "", "", "", "", "", "", [⟨"header_set", "b", "2"⟩]⟩⟩]⟩
        (some ⟨"chat.completions", false⟩)).map (fun cfg => cfg.headers))
      = some [⟨"header_set", "b", "2"⟩]
    ∧ ([⟨"header_set", "b", "2"⟩] : List HeaderOp)
        ≠ [⟨"header_set", "a", "1"⟩, ⟨"header_set", "b", "2"⟩] := by
  refine ⟨by decide, by decide⟩

/-- Helper: the runtime walk loads exactly the valid `.conf` files and
skips exactly the invalid ones, in directory order. -/
theorem runtimeLoadList_eq (vf : FileValidator) (entries : List DirEntry) :
    (runtimeLoadList vf entries).1
        = (confFiles entries).filterMap (fun n => (vf n).toOption)
    ∧ (runtimeLoadList vf entries).2
        = (confFiles entries).filter (fun n => isErr (vf n)) := by
  induction entries with
  | nil => exact ⟨rfl, rfl⟩
  | cons e rest ih =>
    by_cases hd : e.isDir
    · simpa [runtimeLoadList, confFiles, hd] using ih
    · by_cases hc : goEndsWith e.name ".conf" = true
      · cases hv : vf e.name with
        | error msg =>
          refine ⟨?_, ?_⟩ <;>
            simp [runtimeLoadList, confFiles, hd, hc, hv, Except.toOption, isErr,
              ih.1, ih.2, List.filter_cons, List.filterMap_cons]
        | ok pname =>
          refine ⟨?_, ?_⟩ <;>
            simp [runtimeLoadList, confFiles, hd, hc, hv, Except.toOption, isErr,
              ih.1, ih.2, List.filter_cons, List.filterMap_cons]
      · have hc2 : goEndsWith e.name ".conf" = false := by
          cases h : goEndsWith e.name ".conf"
          · rfl
          · exact absurd h hc
        simpa [runtimeLoadList, confFiles, hd, hc2] using ih

/-- Helper: the strict loop fails whenever some remaining `.conf` file is
invalid. -/
theorem validateDirLoop_err_of_bad (vf : FileValidator) :
    ∀ (entries : List DirEntry) (seen : List (String × String)) (loaded : List String),
      (∃ n ∈ confFiles entries, isErr (vf n) = true) →
      ∃ msg, validateDirLoop vf entries seen loaded = Except.error msg := by
  intro entries
  induction entries with
  | nil =>
    intro seen loaded h
    simp [confFiles] at h
  | cons e rest ih =>
    intro seen loaded h
    by_cases hd : e.isDir
    · have h2 : ∃ n ∈ confFiles rest, isErr (vf n) = true := by
        simpa [confFiles, hd] using h
      simpa [validateDirLoop, hd] using ih seen loaded h2
    · by_cases hc : goEndsWith e.name ".conf" = true
      · cases hv : vf e.name with
        | error msg =>
          refine ⟨msg, ?_⟩
          simp [validateDirLoop, hd, hc, hv]
        | ok pname =>
          have h2 : ∃ n ∈ confFiles rest, isErr (vf n) = true := by
            rcases h with ⟨n, hn, hbad⟩
            rcases (by simpa [confFiles, hd, hc] using hn :
                n = e.name ∨ n ∈ confFiles rest) with rfl | hmem
            · rw [hv] at hbad; cases hbad
            · exact ⟨n, hmem, hbad⟩
          cases hlk : List.lookup pname seen with
          | none =>
            obtain ⟨msg, hmsg⟩ := ih ((pname, e.name) :: seen) (loaded ++ [pname]) h2
            exact ⟨msg, by simp [validateDirLoop, hd, hc, hv, hlk, hmsg]⟩
          | some other =>
            exact ⟨"duplicate provider name " ++ pname,
              by simp [validateDirLoop, hd, hc, hv, hlk]⟩
      · have hc2 : goEndsWith e.name ".conf" = false := by
          cases hcc : goEndsWith e.name ".conf"
          · rfl
          · exact absurd hcc hc
        have h2 : ∃ n ∈ confFiles rest, isErr (vf n) = true := by
          simpa [confFiles, hd, hc2] using h
        simpa [validateDirLoop, hd, hc2] using ih seen loaded h2

/-- C2 (amended): the boot-time load and the hot-reload both run the same
lenient `ReloadFromDir`: a malformed provider file does not abort startup —
it is skipped and reported, at boot exactly as at reload, and the
published snapshot holds exactly the valid `.conf` files; a reload whose
directory read fails keeps the previous snapshot in force; strict
fail-closed behaviour exists only in `ValidateProvidersDir`, which errors
whenever any `.conf` file is malformed. -/
theorem c2_load_behavior (vf : FileValidator) (entries : List DirEntry)
    (current : List String) (e : String) :
    bootLoadProviders vf (Except.ok entries)
      = Except.ok ((runtimeLoadList vf entries).1,
          ⟨(runtimeLoadList vf entries).1, (runtimeLoadList vf entries).2⟩)
    ∧ reloadProvidersRuntime vf (Except.ok entries) current
      = ((runtimeLoadList vf entries).1,
          Except.ok ⟨(runtimeLoadList vf entries).1, (runtimeLoadList vf entries).2⟩)
    ∧ reloadProvidersRuntime vf (Except.error e) current
      = (current, Except.error ("reload providers dir: " ++ e))
    ∧ (runtimeLoadList vf entries).1
        = (confFiles entries).filterMap (fun n => (vf n).toOption)
    ∧ (runtimeLoadList vf entries).2
        = (confFiles entries).filter (fun n => isErr (vf n))
    ∧ ((∃ n ∈ confFiles entries, isErr (vf n) = true) →
        ∃ msg, ValidateProvidersDir vf (Except.ok entries) = Except.error msg) := by
  refine ⟨rfl, rfl, rfl, (runtimeLoadList_eq vf entries).1,
    (runtimeLoadList_eq vf entries).2, ?_⟩
  intro h
  obtain ⟨msg, hmsg⟩ := validateDirLoop_err_of_bad vf entries [] [] h
  exact ⟨msg, by simp [ValidateProvidersDir, hmsg]⟩

/-- Witness for C2: a directory with one valid and one malformed file —
boot publishes the valid provider and skips the malformed file, while the
strict validator rejects the directory. -/
theorem c2_load_behavior_witness :
    bootLoadProviders demoVf (Except.ok [⟨"good.conf", false⟩, ⟨"bad.conf", false⟩])
      = Except.ok (["good"], ⟨["good"], ["bad.conf"]⟩)
    ∧ ∃ msg, ValidateProvidersDir demoVf
        (Except.ok [⟨"good.conf", false⟩, ⟨"bad.conf", false⟩]) = Except.error msg := by
  have h := c2_load_behavior demoVf [⟨"good.conf", false⟩, ⟨"bad.conf", false⟩] [] "x"
  refine ⟨?_, h.2.2.2.2.2 ⟨"bad.conf", by decide, by rfl⟩⟩
  rw [h.1]
  rfl

/-- C2 counterexample: the claim says a malformed file at boot aborts
startup; on a directory with one malformed `.conf` file, the boot-time
load succeeds (no abort), publishing the valid provider and skipping the
malformed file. -/
theorem c2_boot_skips_invalid_counterexample :
    bootLoadProviders demoVf (Except.ok [⟨"good.conf", false⟩, ⟨"bad.conf", false⟩])
      = Except.ok (["good"], ⟨["good"], ["bad.conf"]⟩)
    ∧ ∀ msg, bootLoadProviders demoVf
        (Except.ok [⟨"good.conf", false⟩, ⟨"bad.conf", false⟩]) ≠ Except.error msg := by
  have h1 : bootLoadProviders demoVf
      (Except.ok [⟨"good.conf", false⟩, ⟨"bad.conf", false⟩])
      = Except.ok (["good"], ⟨["good"], ["bad.conf"]⟩) := by rfl
  exact ⟨h1, fun msg h => by rw [h1] at h; cases h⟩

/-- Helper: the array summation loop of `CoerceInt` is the sum of the
mapped list. -/
theorem coerceIntSum_eq (xs : List JValue) :
    coerceIntSum xs = (xs.map CoerceInt).sum := by
  induction xs with
  | nil => rfl
  | cons x t ih => simp [coerceIntSum, ih]

/-- Helper: the source path walk and the claim-side matched-value
semantics agree: the walk returns exactly the matched values, and its
failure cases are exactly the no-match cases. -/
theorem matchedValues_eq_collect (parts : List String) (v : JValue) :
    matchedValues parts v = (collectPathValues parts v).getD [] := by
  induction parts generalizing v with
  | nil => rfl
  | cons seg0 rest ih =>
    simp only [matchedValues, collectPathValues]
    by_cases hp : goTrim seg0 = ""
    · simp [hp]
    · simp only [hp, if_false, if_neg hp]
      cases hstep : stepName (splitIndex (goTrim seg0)).1 v with
      | none => simp
      | some v2 =>
        simp only [Option.getD_some]
        by_cases hidx : (splitIndex (goTrim seg0)).2.2.1 = false
        · simp [hidx, ih]
        · simp only [hidx, if_false]
          cases v2 with
          | arr xs =>
            by_cases hstar : (splitIndex (goTrim seg0)).2.2.2 = true
            · by_cases hrest : rest.isEmpty
              · simp [hstar, hrest]
              · simp only [hstar, hrest, if_true, if_false]
                simp [ih]
            · have hstar2 : (splitIndex (goTrim seg0)).2.2.2 = false := by
                cases hs : (splitIndex (goTrim seg0)).2.2.2
                · rfl
                · exact absurd hs hstar
              by_cases hb : (splitIndex (goTrim seg0)).2.1 < 0
                  ∨ ((xs.length : Int) ≤ (splitIndex (goTrim seg0)).2.1)
              · simp [hstar2, hb]
              · simp [hstar2, hb, ih]
          | null => simp
          | bool b => simp
          | float q => simp
          | int n => simp
          | number s => simp
          | str s => simp
          | obj fields => simp

/-- C10: `GetIntByPath` and `GetFloatByPath` are total and return the sum
of the coerced values matched by the restricted JSONPath — a `[*]`
wildcard sums over every matched element — and return 0 whenever the path
does not resolve (missing key, out-of-range index, wrong-typed
intermediate value, malformed path); the coercions preserve numbers and
sum arrays. -/
theorem c10_path_sum_total (root : List (String × JValue)) (path : String) :
    GetIntByPath root path
      = ((matchedValuesByPath (JValue.obj root) path).map CoerceInt).sum
    ∧ GetFloatByPath root path
      = ((matchedValuesByPath (JValue.obj root) path).map CoerceFloat).sum
    ∧ (GetValuesByPath (JValue.obj root) path = none →
        GetIntByPath root path = 0 ∧ GetFloatByPath root path = 0)
    ∧ (∀ n : Int, CoerceInt (JValue.int n) = n)
    ∧ (∀ q : Rat, CoerceFloat (JValue.float q) = q)
    ∧ (∀ xs : List JValue, CoerceInt (JValue.arr xs) = (xs.map CoerceInt).sum) := by
  have hmv : matchedValuesByPath (JValue.obj root) path
      = (GetValuesByPath (JValue.obj root) path).getD [] := by
    simp only [matchedValuesByPath, GetValuesByPath]
    by_cases hwf : goTrim path = "" ∨ goStartsWith (goTrim path) "$." = false
    · simp [hwf]
    · simp [hwf, matchedValues_eq_collect]
  refine ⟨?_, ?_, ?_, fun n => rfl, fun q => rfl, fun xs => coerceIntSum_eq xs⟩
  · rw [GetIntByPath, hmv]
    cases GetValuesByPath (JValue.obj root) path <;> simp
  · rw [GetFloatByPath, hmv]
    cases GetValuesByPath (JValue.obj root) path <;> simp
  · intro h
    rw [GetIntByPath, GetFloatByPath, h]
    exact ⟨rfl, rfl⟩

/-- Witness for C10: a path without the JSONPath root resolves to
nothing and both readers return 0. -/
theorem c10_path_sum_total_witness :
    GetIntByPath [] "x" = 0 ∧ GetFloatByPath [] "x" = 0 := by
  exact (c10_path_sum_total [] "x").2.2.1 (by rfl)

end ONR
